import Mathlib

/-!
Shallow embedding of the weak-area analytics and AI question-generation
modules of the AI-Learning-Platform repository
(`backend/users/analytics.py`, `backend/users/ai_generator.py`,
`backend/users/questions.py`), together with proofs about the embedded
functions.

Modelling conventions:
* Python floats are idealised as exact arithmetic over a linear ordered
  field (`ℚ` for concrete evaluation, `ℝ` where the code takes a square
  root); `round(x, n)` is round-half-to-even on exact values.
* Database rows of `PracticeActivity` become an explicit list of
  `Attempt` records; the Django `values('topic').annotate(...)`
  aggregation is modelled as grouping by topic.
* The Groq client and the Python `json` stdlib are abstracted as
  parameters (`GroqEnv`, `JsonLib`); exceptions become `Except`/`Option`
  results.
* Python f-string presentation text that interpolates numbers is
  modelled as structured constructors (`Reason`, `Suggestion`) carrying
  the interpolated data; fixed message strings are kept verbatim.
-/

section Rounding

variable {α : Type} [LinearOrderedField α] [FloorRing α]

/-- Round to the nearest integer, ties to even: the semantics of Python's
built-in `round` on exact values. -/
def roundHalfEven (x : α) : ℤ :=
  if Int.fract x < 1/2 then ⌊x⌋
  else if 1/2 < Int.fract x then ⌊x⌋ + 1
  else if ⌊x⌋ % 2 = 0 then ⌊x⌋ else ⌊x⌋ + 1

/-- Python `round(x, ndigits)` on exact values. -/
def pyRound (x : α) (ndigits : ℕ) : α :=
  (roundHalfEven (x * (10 : α) ^ ndigits) : α) / (10 : α) ^ ndigits

end Rounding

section Scorer

variable {α : Type} [LinearOrderedField α] [FloorRing α]

/-- `analytics.calculate_weakness_score` (analytics.py lines 9-36). -/
def calculate_weakness_score (accuracy avg_time consistency : α) : α :=
  let accuracy_weakness := (100 - accuracy) / 100
  let time_weakness := min (avg_time / 120) 1.0
  let consistency_weakness := (100 - consistency) / 100
  let weakness_score :=
    accuracy_weakness * 0.5 + time_weakness * 0.3 + consistency_weakness * 0.2
  pyRound weakness_score 2

/-- The status / status_emoji / priority branch of `get_topic_statistics`
(analytics.py lines 83-95). The emoji strings are empty in the source. -/
def classify (s : α) : String × String × String :=
  if s < 0.3 then ("Strong", "", "Low")
  else if s < 0.6 then ("Moderate", "", "Medium")
  else ("Weak", "", "High")

end Scorer

section Aggregator

/-- One `PracticeActivity` row (models.py lines 7-33), restricted to the
fields the analytics module reads. `attempted_at` is the creation
timestamp, `time_taken` is in seconds. -/
structure Attempt where
  topic : String
  is_correct : Bool
  time_taken : ℤ
  attempted_at : ℤ
deriving DecidableEq

/-- Stable insertion (largest key first; on equal keys the inserted
element, which comes earlier in the input, stays first). -/
def insertDescBy {α β : Type} [LinearOrder β] (key : α → β) (a : α) :
    List α → List α
  | [] => [a]
  | b :: rest =>
    if key a < key b then b :: insertDescBy key a rest else a :: b :: rest

/-- Stable sort, largest key first: models Python's stable
`sort(key=..., reverse=True)` and Django's `order_by('-field')`. -/
def sortByKeyDesc {α β : Type} [LinearOrder β] (key : α → β) :
    List α → List α
  | [] => []
  | a :: rest => insertDescBy key a (sortByKeyDesc key rest)

/-- Distinct values in order of first appearance (`seen` accumulates
values already emitted): the set of groups produced by
`values('topic').annotate(...)`. -/
def dedupFirst (seen : List String) : List String → List String
  | [] => []
  | t :: rest =>
    if t ∈ seen then dedupFirst seen rest
    else t :: dedupFirst (t :: seen) rest

/-- The distinct topics of an attempt list. -/
def distinctTopics (attempts : List Attempt) : List String :=
  dedupFirst [] (attempts.map (fun a => a.topic))

/-- Python `statistics.stdev`: the sample standard deviation, with
Bessel's `n - 1` divisor. -/
noncomputable def sampleStdev (data : List ℝ) : ℝ :=
  let n : ℝ := data.length
  let mean := data.sum / n
  Real.sqrt ((data.map (fun x => (x - mean) ^ 2)).sum / (n - 1))

/-- The consistency computation of `get_topic_statistics`
(analytics.py lines 73-78), applied to the 0/1 correctness flags of the
recent attempts. -/
noncomputable def consistencyOf (recent_accuracies : List ℝ) : ℝ :=
  if 1 < recent_accuracies.length then
    max 0 (100 - sampleStdev recent_accuracies * 100)
  else 50

/-- One element of the `topic_analysis` list built by
`get_topic_statistics` (analytics.py lines 97-108). -/
structure TopicSummary (α : Type) where
  topic : String
  total_attempts : ℕ
  correct_answers : ℕ
  accuracy : α
  avg_time : α
  consistency : α
  weakness_score : α
  status : String
  status_emoji : String
  priority : String
deriving DecidableEq

/-- The per-topic body of the `for topic in topic_stats_raw` loop of
`get_topic_statistics` (analytics.py lines 59-108). -/
noncomputable def topicSummaryFor (attempts : List Attempt)
    (topic_name : String) : TopicSummary ℝ :=
  let group := attempts.filter (fun a => a.topic = topic_name)
  let total := group.length
  let correct := (group.filter (fun a => a.is_correct)).length
  let avg_time : ℝ := (group.map (fun a => (a.time_taken : ℝ))).sum / total
  let accuracy : ℝ := if 0 < total then (correct : ℝ) / total * 100 else 0
  let recent := (sortByKeyDesc (fun a => a.attempted_at) group).take 5
  let recent_accuracies : List ℝ :=
    recent.map (fun a => if a.is_correct then 1 else 0)
  let consistency := consistencyOf recent_accuracies
  let weakness_score := calculate_weakness_score accuracy avg_time consistency
  let c := classify weakness_score
  { topic := topic_name
    total_attempts := total
    correct_answers := correct
    accuracy := pyRound accuracy 1
    avg_time := pyRound avg_time 1
    consistency := pyRound consistency 1
    weakness_score := weakness_score
    status := c.1
    status_emoji := c.2.1
    priority := c.2.2 }

/-- `analytics.get_topic_statistics` (analytics.py lines 39-113) on the
user's attempt rows. -/
noncomputable def get_topic_statistics (attempts : List Attempt) :
    List (TopicSummary ℝ) :=
  match attempts with
  | [] => []
  | _ :: _ =>
    sortByKeyDesc (fun t => t.weakness_score)
      ((distinctTopics attempts).map (topicSummaryFor attempts))

end Aggregator

section Composer

/-- The reason text variants of `generate_recommendations`
(analytics.py lines 140-160); the f-string presentation is abstracted as
constructors carrying the interpolated number. -/
inductive Reason (α : Type) where
  | veryLowAccuracy (accuracy : α)
  | tooSlow (avg_time : α)
  | inconsistent
  | moderateAccuracy (accuracy : α)
  | strongPerformance (accuracy : α)
deriving DecidableEq

/-- The suggestion text variants of `generate_recommendations`
(analytics.py lines 140-160), carrying the interpolated topic name. -/
inductive Suggestion where
  | startEasy (topic : String)
  | speedPractice (topic : String)
  | regularPractice (topic : String)
  | mediumPractice (topic : String)
  | maintainPractice (topic : String)
deriving DecidableEq

/-- One recommendation dictionary (analytics.py lines 134-138). -/
structure Recommendation (α : Type) where
  topic : String
  reason : Reason α
  suggestion : Suggestion
deriving DecidableEq

/-- The return dictionary of `generate_recommendations`. -/
structure RecommendationBundle (α : Type) where
  high_priority : List (Recommendation α)
  medium_priority : List (Recommendation α)
  maintain : List (Recommendation α)
  message : String
deriving DecidableEq

variable {α : Type} [LinearOrderedField α]

/-- The recommendation built for one topic by the loop body of
`generate_recommendations` (analytics.py lines 133-161). -/
def recommendationFor (t : TopicSummary α) : Recommendation α :=
  if t.priority = "High" then
    if t.accuracy < 40 then
      ⟨t.topic, Reason.veryLowAccuracy t.accuracy, Suggestion.startEasy t.topic⟩
    else if 90 < t.avg_time then
      ⟨t.topic, Reason.tooSlow t.avg_time, Suggestion.speedPractice t.topic⟩
    else
      ⟨t.topic, Reason.inconsistent, Suggestion.regularPractice t.topic⟩
  else if t.priority = "Medium" then
    ⟨t.topic, Reason.moderateAccuracy t.accuracy, Suggestion.mediumPractice t.topic⟩
  else
    ⟨t.topic, Reason.strongPerformance t.accuracy, Suggestion.maintainPractice t.topic⟩

/-- The three accumulator lists of the `for topic in topic_analysis`
loop (analytics.py lines 129-161): high_priority, medium_priority,
maintain, in input order. -/
def partitionByPriority :
    List (TopicSummary α) →
      List (Recommendation α) × List (Recommendation α) × List (Recommendation α)
  | [] => ([], [], [])
  | t :: rest =>
    let parts := partitionByPriority rest
    if t.priority = "High" then
      (recommendationFor t :: parts.1, parts.2.1, parts.2.2)
    else if t.priority = "Medium" then
      (parts.1, recommendationFor t :: parts.2.1, parts.2.2)
    else
      (parts.1, parts.2.1, recommendationFor t :: parts.2.2)

/-- `analytics.generate_recommendations` (analytics.py lines 116-176). -/
def generate_recommendations (topic_analysis : List (TopicSummary α)) :
    RecommendationBundle α :=
  match topic_analysis with
  | [] =>
    ⟨[], [], [], "Start practicing to get personalized recommendations!"⟩
  | _ :: _ =>
    let parts := partitionByPriority topic_analysis
    let message :=
      if !parts.1.isEmpty then
        "Focus on " ++ toString parts.1.length ++
          " weak area(s) to improve quickly!"
      else if !parts.2.1.isEmpty then
        "Good progress! Work on moderate areas to reach excellence."
      else
        "Excellent! You\x27re strong in all areas. Keep practicing!"
    ⟨parts.1, parts.2.1, parts.2.2, message⟩

end Composer

section ResponseCleaning

/-- Backtick. -/
def btChar : Char := Char.ofNat 96
/-- Straight double quote. -/
def dqChar : Char := Char.ofNat 34
/-- Straight single quote. -/
def sqChar : Char := Char.ofNat 39
/-- Left curly double quote (U+201C). -/
def ldquoChar : Char := Char.ofNat 8220
/-- Right curly double quote (U+201D). -/
def rdquoChar : Char := Char.ofNat 8221
/-- Left curly single quote (U+2018). -/
def lsquoChar : Char := Char.ofNat 8216
/-- Right curly single quote (U+2019). -/
def rsquoChar : Char := Char.ofNat 8217
/-- Comma. -/
def commaChar : Char := Char.ofNat 44
/-- Opening square bracket. -/
def lbrackChar : Char := Char.ofNat 91
/-- Closing square bracket. -/
def rbrackChar : Char := Char.ofNat 93
/-- Closing curly brace. -/
def rbraceChar : Char := Char.ofNat 125

/-- The characters matched by the regex class `\s` (ASCII range), as
used by `re.sub` and by Python's `str.strip`. -/
def isPySpace (c : Char) : Bool :=
  c == Char.ofNat 32 || c == Char.ofNat 9 || c == Char.ofNat 10 ||
    c == Char.ofNat 13 || c == Char.ofNat 11 || c == Char.ofNat 12

/-- Literal-prefix test on character lists. -/
def listStartsWith : List Char → List Char → Bool
  | [], _ => true
  | _ :: _, [] => false
  | p :: ps, c :: cs => p == c && listStartsWith ps cs

/-- `re.sub(pat + r'\s*', '', text)` for a non-empty literal `pat`
(given as head and tail): scan left to right, and at each match remove
the literal together with the greedy run of whitespace after it. -/
def reSubStar (p : Char) (ps : List Char) : List Char → List Char
  | [] => []
  | c :: rest =>
    if listStartsWith (p :: ps) (c :: rest) then
      reSubStar p ps (((c :: rest).drop (p :: ps).length).dropWhile isPySpace)
    else
      c :: reSubStar p ps rest
termination_by l => l.length
decreasing_by
  · have hdw : ∀ l : List Char, (l.dropWhile isPySpace).length ≤ l.length := by
      intro l
      induction l with
      | nil => simp
      | cons d ds ih =>
        rw [List.dropWhile_cons]
        split
        · exact Nat.le_succ_of_le ih
        · exact Nat.le_refl _
    simp only [List.length_cons, List.length_drop]
    have h1 := hdw ((c :: rest).drop (p :: ps).length)
    have h2 : ((c :: rest).drop (p :: ps).length).length =
        (c :: rest).length - (p :: ps).length := List.length_drop _ _
    simp only [List.length_cons] at h1 h2
    omega
  · simp only [List.length_cons]
    omega

/-- Python `str.strip()` (ASCII whitespace). -/
def pyStripChars (l : List Char) : List Char :=
  ((l.dropWhile isPySpace).reverse.dropWhile isPySpace).reverse

/-- The sequential `str.replace` calls over `quote_map`
(ai_generator.py lines 72-79); each maps one curly-quote character to
its straight variant, so the composition is a character map. -/
def fixQuoteChar (c : Char) : Char :=
  if c == ldquoChar || c == rdquoChar then dqChar
  else if c == lsquoChar || c == rsquoChar then sqChar
  else c

/-- `_clean_response_text` (ai_generator.py lines 66-81) on the
character list: remove the two fence patterns, strip, normalise
quotes. -/
def cleanChars (l : List Char) : List Char :=
  (pyStripChars
      (reSubStar btChar [btChar, btChar]
        (reSubStar btChar [btChar, btChar, 'j', 's', 'o', 'n'] l))).map
    fixQuoteChar

/-- `ai_generator._clean_response_text` (ai_generator.py lines 66-81). -/
def _clean_response_text (s : String) : String :=
  String.mk (cleanChars s.data)

end ResponseCleaning

section ResponseParsing

/-- A Python value decoded from JSON. `jint` and `jnum` are kept apart
because the code checks `isinstance(correct_answer, int)`; `jbool` is a
Python `bool`, which is itself an `int` subtype. -/
inductive JVal where
  | jnull
  | jbool (b : Bool)
  | jint (n : ℤ)
  | jnum (q : ℚ)
  | jstr (s : String)
  | jarr (items : List JVal)
  | jobj (fields : List (String × JVal))

/-- The Python `json` standard library, abstracted: `loads` is
`json.loads`, `rawDecode` is `JSONDecoder().raw_decode` (parse of the
first JSON value of the string); `none` models `JSONDecodeError`. -/
structure JsonLib where
  loads : String → Option JVal
  rawDecode : String → Option JVal

/-- `isinstance(parsed, list)` extraction. -/
def JVal.asArr : JVal → Option (List JVal)
  | JVal.jarr items => some items
  | _ => none

/-- Index of the last `]`, Python `str.rfind(']')`. -/
def lastRBrack (l : List Char) : Option ℕ :=
  match l.reverse.findIdx? (fun c => c == rbrackChar) with
  | some j => some (l.length - 1 - j)
  | none => none

/-- `re.sub(r',\s*([}\]])', r'\1', candidate)`: drop a comma standing
directly (modulo whitespace) before a closing brace or bracket; the
scan resumes after the kept closing character. -/
def removeTrailingCommas : List Char → List Char
  | [] => []
  | c :: rest =>
    if c == commaChar then
      match h : rest.dropWhile isPySpace with
      | b :: rest2 =>
        if b == rbraceChar || b == rbrackChar then
          b :: removeTrailingCommas rest2
        else
          c :: removeTrailingCommas rest
      | [] => c :: removeTrailingCommas rest
    else
      c :: removeTrailingCommas rest
termination_by l => l.length
decreasing_by
  · have hdw : ∀ l : List Char, (l.dropWhile isPySpace).length ≤ l.length := by
      intro l
      induction l with
      | nil => simp
      | cons d ds ih =>
        rw [List.dropWhile_cons]
        split
        · exact Nat.le_succ_of_le ih
        · exact Nat.le_refl _
    have h1 := hdw rest
    rw [h] at h1
    simp only [List.length_cons] at h1 ⊢
    omega
  · simp only [List.length_cons]; omega
  · simp only [List.length_cons]; omega
  · simp only [List.length_cons]; omega

/-- The three parse strategies of `_parse_questions_response`
(ai_generator.py lines 88-117), applied to the cleaned text. A `none`
result models the function raising `json.JSONDecodeError` (either from
strategy 3's unguarded `json.loads` or from the final `raise`). -/
def parseStrategies (J : JsonLib) (cleaned : String) : Option (List JVal) :=
  match (J.loads cleaned).bind JVal.asArr with
  | some items => some items
  | none =>
    let chars := cleaned.data
    let strategy2 :=
      match chars.findIdx? (fun c => c == lbrackChar) with
      | some i => (J.rawDecode (String.mk (chars.drop i))).bind JVal.asArr
      | none => none
    match strategy2 with
    | some items => some items
    | none =>
      match chars.findIdx? (fun c => c == lbrackChar), lastRBrack chars with
      | some first, some last =>
        if first < last then
          let candidate := (chars.take (last + 1)).drop first
          (J.loads (String.mk (removeTrailingCommas candidate))).bind JVal.asArr
        else none
      | some _, none => none
      | none, _ => none

/-- `ai_generator._parse_questions_response` (ai_generator.py lines
84-117). -/
def _parse_questions_response (J : JsonLib) (response_text : String) :
    Option (List JVal) :=
  parseStrategies J (_clean_response_text response_text)

end ResponseParsing

section StaticBank

/-- One entry of `QUIZ_QUESTIONS` (questions.py lines 4-145). -/
structure BankQuestion where
  id : ℕ
  topic : String
  difficulty : String
  question : String
  options : List String
  correct_answer : ℕ
  explanation : String
deriving DecidableEq

/-- `questions.QUIZ_QUESTIONS` (questions.py lines 4-145). -/
def QUIZ_QUESTIONS : List BankQuestion :=
  [ { id := 1, topic := "Logical Reasoning", difficulty := "Easy",
      question := "If all roses are flowers and some flowers fade quickly, which statement is definitely true?",
      options := ["All roses fade quickly", "Some roses are flowers",
        "All flowers are roses", "No roses fade quickly"],
      correct_answer := 1,
      explanation := "Since all roses are flowers, it\x27s definitely true that some roses are flowers. We cannot conclude anything about fading from the given information." },
    { id := 2, topic := "Quantitative Aptitude", difficulty := "Easy",
      question := "A number is increased by 20% and then decreased by 20%. What is the net change?",
      options := ["No change (0%)", "4% decrease", "4% increase", "2% decrease"],
      correct_answer := 1,
      explanation := "Let\x27s say the number is 100. After 20% increase: 120. After 20% decrease of 120: 120 - 24 = 96. Net change = 100 - 96 = 4% decrease." },
    { id := 3, topic := "Data Interpretation", difficulty := "Easy",
      question := "In a class of 50 students, 30 like Math and 25 like Science. If 10 students like both subjects, how many students like neither?",
      options := ["5 students", "10 students", "15 students", "20 students"],
      correct_answer := 0,
      explanation := "Students liking at least one subject = 30 + 25 - 10 = 45. Students liking neither = 50 - 45 = 5 students." },
    { id := 4, topic := "Logical Reasoning", difficulty := "Easy",
      question := "If in a certain code, COMPUTER is written as DPNQVUFS, how is SCIENCE written?",
      options := ["TDJFODF", "SCJDMBD", "TDJFMDF", "RBHFMBD"],
      correct_answer := 0,
      explanation := "Each letter is shifted by +1 in the alphabet. S→T, C→D, I→J, E→F, N→O, C→D, E→F. Answer: TDJFODF" },
    { id := 5, topic := "Quantitative Aptitude", difficulty := "Easy",
      question := "What is the average of first 10 natural numbers?",
      options := ["5", "5.5", "6", "10"],
      correct_answer := 1,
      explanation := "Sum of first 10 natural numbers = 10 × 11 / 2 = 55. Average = 55 / 10 = 5.5" },
    { id := 6, topic := "Pattern Recognition", difficulty := "Easy",
      question := "Find the next number in the series: 2, 6, 12, 20, 30, ?",
      options := ["40", "42", "44", "38"],
      correct_answer := 1,
      explanation := "Pattern: 1×2=2, 2×3=6, 3×4=12, 4×5=20, 5×6=30, 6×7=42. Each term is n×(n+1)." },
    { id := 7, topic := "Data Interpretation", difficulty := "Easy",
      question := "If 60% of a number is 120, what is 25% of that number?",
      options := ["30", "40", "50", "60"],
      correct_answer := 2,
      explanation := "60% of number = 120, so the number = 120/0.6 = 200. 25% of 200 = 50." },
    { id := 8, topic := "Logical Reasoning", difficulty := "Easy",
      question := "A is taller than B. C is shorter than B. Who is the shortest?",
      options := ["A", "B", "C", "Cannot be determined"],
      correct_answer := 2,
      explanation := "From the statements: A > B > C. Therefore, C is the shortest." },
    { id := 9, topic := "Quantitative Aptitude", difficulty := "Easy",
      question := "If the ratio of boys to girls in a class is 3:2 and there are 15 boys, how many girls are there?",
      options := ["8", "10", "12", "15"],
      correct_answer := 1,
      explanation := "Ratio is 3:2. If 3 parts = 15 boys, then 1 part = 5. So 2 parts (girls) = 2 × 5 = 10 girls." },
    { id := 10, topic := "Pattern Recognition", difficulty := "Easy",
      question := "Complete the series: A, C, F, J, O, ?",
      options := ["T", "U", "S", "V"],
      correct_answer := 1,
      explanation := "Pattern: +2, +3, +4, +5, +6. A→C(+2)→F(+3)→J(+4)→O(+5)→U(+6)." } ]

/-- `questions.get_all_questions` (questions.py lines 148-150). -/
def get_all_questions : List BankQuestion := QUIZ_QUESTIONS

end StaticBank

section Generator

/-- A question dictionary returned by `generate_questions` or
`_get_static_fallback_questions`. JSON-sourced payload fields keep
their decoded `JVal` form because the code does not constrain their
types. -/
structure Question where
  id : String
  topic : String
  difficulty : String
  question : JVal
  options : List JVal
  correct_answer : ℤ
  explanation : JVal
  source : String

/-- Python `str.lower()` (ASCII case folding). -/
def strLower (s : String) : String :=
  String.mk (s.data.map Char.toLower)

/-- The `for index, q in enumerate(questions[:num_questions], start=1)`
formatting loop of `_get_static_fallback_questions` (ai_generator.py
lines 51-62). Every bank entry carries all keys, so the `q.get`
defaults never fire. -/
def formatFallback (topic : String) : ℕ → List BankQuestion → List Question
  | _, [] => []
  | index, q :: rest =>
    { id := "fallback_" ++ topic ++ "_" ++ toString index
      topic := q.topic
      difficulty := q.difficulty
      question := JVal.jstr q.question
      options := q.options.map JVal.jstr
      correct_answer := (q.correct_answer : ℤ)
      explanation := JVal.jstr q.explanation
      source := "Static Fallback" } :: formatFallback topic (index + 1) rest

/-- `ai_generator._get_static_fallback_questions` (ai_generator.py
lines 43-63). -/
def _get_static_fallback_questions (topic difficulty : String)
    (num_questions : ℕ) : List Question :=
  let _ := difficulty
  let questions :=
    get_all_questions.filter (fun q => strLower q.topic == strLower topic)
  let questions := if questions.isEmpty then get_all_questions else questions
  formatFallback topic 1 (questions.take num_questions)

/-- Outcome of one `client.chat.completions.create` call: the call
raises, or returns the (stripped) message content. -/
inductive CallResult where
  | raised
  | ok (text : String)

/-- The Groq runtime environment, abstracted: whether a client can be
constructed (`groq` importable, constructor does not raise), and the
completion call as a function of model name and attempt number. -/
structure GroqEnv where
  available : Bool
  call : String → ℕ → CallResult

/-- The Django settings the module reads. -/
structure Settings where
  GROQ_MODEL : String
  GROQ_API_KEY : String

/-- `ai_generator._get_groq_models` (ai_generator.py lines 19-27). -/
def _get_groq_models (settings : Settings) : List String :=
  let configured := String.mk (pyStripChars settings.GROQ_MODEL.data)
  let default_models := ["llama-3.3-70b-versatile", "llama-3.1-8b-instant"]
  if configured ≠ "" then
    configured :: default_models.filter (fun m => m ≠ configured)
  else
    default_models

/-- `ai_generator._get_groq_client` (ai_generator.py lines 30-40). -/
def _get_groq_client (env : GroqEnv) (settings : Settings) :
    Option (String → ℕ → CallResult) :=
  if env.available ∧ settings.GROQ_API_KEY ≠ "" then some env.call else none

/-- First value for a key in a decoded JSON object (Python dict keys
are unique, so first match is the value). -/
def jlookup : List (String × JVal) → String → Option JVal
  | [], _ => none
  | (k, v) :: rest, key => if k = key then some v else jlookup rest key

/-- Python substring test `needle in hay`. -/
def listHasInfix (needle : List Char) : List Char → Bool
  | [] => needle.isEmpty
  | c :: rest => listStartsWith needle (c :: rest) || listHasInfix needle rest

/-- Python `key in q` for a decoded JSON value; `none` models the
`TypeError` raised when `q` is not a container. -/
def keyIn (key : String) : JVal → Option Bool
  | JVal.jobj fields => some (jlookup fields key).isSome
  | JVal.jarr items =>
    some (items.any (fun v =>
      match v with
      | JVal.jstr s => s == key
      | _ => false))
  | JVal.jstr s => some (listHasInfix key.data s.data)
  | _ => none

/-- `isinstance(v, int)` plus its value: Python `bool` is an `int`
subtype, with `True == 1` and `False == 0`. -/
def toPyInt : JVal → Option ℤ
  | JVal.jint n => some n
  | JVal.jbool b => some (if b then 1 else 0)
  | _ => none

/-- Validation and formatting of one parsed question (ai_generator.py
lines 205-230): `Except.error` models an uncaught exception inside the
`try` block (`TypeError` from `key in q`, `AttributeError` from `.get`
on a non-dict); `ok none` models `continue` (skip). -/
def formatOne (model_name topic difficulty : String) (i : ℕ) (q : JVal) :
    Except Unit (Option Question) :=
  match keyIn "question" q with
  | none => Except.error ()
  | some false => Except.ok none
  | some true =>
  match keyIn "options" q with
  | none => Except.error ()
  | some false => Except.ok none
  | some true =>
  match keyIn "correct_answer" q with
  | none => Except.error ()
  | some false => Except.ok none
  | some true =>
  match keyIn "explanation" q with
  | none => Except.error ()
  | some false => Except.ok none
  | some true =>
  match q with
  | JVal.jobj fields =>
    match jlookup fields "options" with
    | some (JVal.jarr opts) =>
      if opts.length = 4 then
        match (jlookup fields "correct_answer").bind toPyInt with
        | some ca =>
          if ca = 0 ∨ ca = 1 ∨ ca = 2 ∨ ca = 3 then
            Except.ok (some
              { id := "ai_" ++ topic ++ "_" ++ toString (i + 1)
                topic := topic
                difficulty := difficulty
                question := (jlookup fields "question").getD JVal.jnull
                options := opts
                correct_answer := ca
                explanation := (jlookup fields "explanation").getD JVal.jnull
                source := "Groq AI (" ++ model_name ++ ")" })
          else Except.ok none
        | none => Except.ok none
      else Except.ok none
    | _ => Except.ok none
  | _ => Except.error ()

/-- The `for i, q in enumerate(questions[:num_questions])` loop
(ai_generator.py lines 204-230), building `formatted_questions`. -/
def formatQuestions (model_name topic difficulty : String) :
    ℕ → List JVal → Except Unit (List Question)
  | _, [] => Except.ok []
  | i, q :: rest =>
    match formatOne model_name topic difficulty i q with
    | Except.error _ => Except.error ()
    | Except.ok none => formatQuestions model_name topic difficulty (i + 1) rest
    | Except.ok (some fq) =>
      match formatQuestions model_name topic difficulty (i + 1) rest with
      | Except.error _ => Except.error ()
      | Except.ok l => Except.ok (fq :: l)

/-- One iteration of the model/attempt loop of `generate_questions`
(ai_generator.py lines 169-243): `none` when the call raises, the
response fails to parse, formatting raises, or no valid question
remains — all of which the code catches before moving on. -/
def runAttempt (env : GroqEnv) (J : JsonLib)
    (model_name topic difficulty : String) (num_questions : ℕ)
    (attempt : ℕ) : Option (List Question) :=
  match env.call model_name attempt with
  | CallResult.raised => none
  | CallResult.ok text =>
    match _parse_questions_response J text with
    | none => none
    | some questions =>
      match formatQuestions model_name topic difficulty 0
          (questions.take num_questions) with
      | Except.error _ => none
      | Except.ok formatted =>
        if formatted.isEmpty then none else some formatted

/-- The `for model_name in model_candidates` / `for attempt in
range(1, 3)` loops (ai_generator.py lines 169-243). -/
def tryModels (env : GroqEnv) (J : JsonLib)
    (topic difficulty : String) (num_questions : ℕ) :
    List String → Option (List Question)
  | [] => none
  | m :: rest =>
    match runAttempt env J m topic difficulty num_questions 1 with
    | some qs => some qs
    | none =>
      match runAttempt env J m topic difficulty num_questions 2 with
      | some qs => some qs
      | none => tryModels env J topic difficulty num_questions rest

/-- `ai_generator.generate_questions` (ai_generator.py lines 120-253).
`Except.error` models the `raise` paths taken when `allow_fallback` is
false. -/
def generate_questions (env : GroqEnv) (J : JsonLib) (settings : Settings)
    (topic difficulty : String) (num_questions : ℕ)
    (allow_fallback : Bool) : Except String (List Question) :=
  match _get_groq_client env settings with
  | none =>
    if allow_fallback then
      Except.ok (_get_static_fallback_questions topic difficulty num_questions)
    else
      Except.error
        "Groq client unavailable. Ensure GROQ_API_KEY is set and groq package is installed."
  | some _ =>
    match tryModels env J topic difficulty num_questions
        (_get_groq_models settings) with
    | some qs => Except.ok qs
    | none =>
      if allow_fallback then
        Except.ok
          (_get_static_fallback_questions topic difficulty num_questions)
      else
        Except.error "AI generation failed"

/-- The topic/difficulty selection and dispatch of
`generate_adaptive_questions` after the statistics are fetched
(ai_generator.py lines 272-299). -/
def adaptiveFromStats {α : Type} [LinearOrderedField α] (env : GroqEnv)
    (J : JsonLib) (settings : Settings)
    (topic_stats : List (TopicSummary α)) (num_questions : ℕ)
    (allow_fallback : Bool) : Except String (List Question) :=
  match topic_stats with
  | [] =>
    generate_questions env J settings "Logical Reasoning" "Easy"
      num_questions allow_fallback
  | t0 :: rest =>
    let weak_topics := (t0 :: rest).filter
      (fun t => t.status == "Weak" || t.status == "Moderate")
    match weak_topics with
    | [] =>
      generate_questions env J settings t0.topic "Medium"
        num_questions allow_fallback
    | weakest :: _ =>
      let accuracy := weakest.accuracy
      let difficulty :=
        if accuracy < 40 then "Easy"
        else if accuracy < 70 then "Medium"
        else "Hard"
      generate_questions env J settings weakest.topic difficulty
        num_questions allow_fallback

/-- `ai_generator.generate_adaptive_questions` (ai_generator.py lines
256-299) on the user's attempt rows. -/
noncomputable def generate_adaptive_questions (env : GroqEnv) (J : JsonLib)
    (settings : Settings) (attempts : List Attempt) (num_questions : ℕ)
    (allow_fallback : Bool) : Except String (List Question) :=
  adaptiveFromStats env J settings (get_topic_statistics attempts)
    num_questions allow_fallback

end Generator

section SpecComparison

/-- The population standard deviation (divisor `n`), as named by the
specification's description of the consistency computation; written
from the spec's words, for comparison with `sampleStdev`, which embeds
the code's `statistics.stdev`. -/
noncomputable def popStdev (data : List ℝ) : ℝ :=
  let n : ℝ := data.length
  let mean := data.sum / n
  Real.sqrt ((data.map (fun x => (x - mean) ^ 2)).sum / n)

/-- The consistency computation as the specification words it:
`max(0, 100 − 100·stdev)` over the population standard deviation of the
recent correctness flags, default 50 below 2 samples. For comparison
with `consistencyOf`. -/
noncomputable def consistencySpecPop (recent_accuracies : List ℝ) : ℝ :=
  if 1 < recent_accuracies.length then
    max 0 (100 - popStdev recent_accuracies * 100)
  else 50

end SpecComparison

section FenceModel

/-- The input construction of the round-trip property: the JSON text
wrapped in ```json code fences. -/
def fenceWrap (s : String) : String := "```json\n" ++ s ++ "\n```"

/-- The characters of the opening fence `"```json\n"`. -/
def fenceJsonChars : List Char :=
  [btChar, btChar, btChar, 'j', 's', 'o', 'n', '\n']

/-- The characters of the closing fence `"\n```"`. -/
def fenceCloseChars : List Char := ['\n', btChar, btChar, btChar]

/-- One character of the smart-quote substitution: a straight double
quote becomes a curly double quote, a straight single quote a curly
single quote, and every other character stays unchanged. -/
def smartQuoteCharB (a b : Char) : Bool :=
  if a = dqChar then b == ldquoChar || b == rdquoChar
  else if a = sqChar then b == lsquoChar || b == rsquoChar
  else a == b

/-- `smartQuotedB t t'` holds when `t'` is `t` with smart (curly)
quotes substituted for the straight quotes. -/
def smartQuotedB : List Char → List Char → Bool
  | [], [] => true
  | a :: as, b :: bs => smartQuoteCharB a b && smartQuotedB as bs
  | _, _ => false

end FenceModel

section ConcreteInputs

/-- Two attempts on one topic, one correct and one wrong: the sample
and population standard deviations of the flags [1, 0] differ. -/
def c2Attempts : List Attempt :=
  [⟨"Algebra", true, 30, 2⟩, ⟨"Algebra", false, 30, 1⟩]

/-- Two correct attempts on one topic: all consistency values are
rational, used by the C2 witness. -/
def c2GoodAttempts : List Attempt :=
  [⟨"Algebra", true, 60, 1⟩, ⟨"Algebra", true, 60, 2⟩]

/-- A concrete three-topic statistics list (High, Medium, Low
priority) used by the C9 witness. -/
def c9Stats : List (TopicSummary ℚ) :=
  [⟨"Algebra", 10, 3, 30, 95, 40, 0.66, "Weak", "", "High"⟩,
   ⟨"Geometry", 10, 6, 60, 50, 60, 0.42, "Moderate", "", "Medium"⟩,
   ⟨"Series", 10, 9, 90, 20, 90, 0.12, "Strong", "", "Low"⟩]

/-- A concrete statistics list (one Weak topic of accuracy 35 first,
one Strong topic) used by the C10 witness. -/
def c10Stats : List (TopicSummary ℚ) :=
  [⟨"Algebra", 10, 3, 35, 80, 40, 0.7, "Weak", "", "High"⟩,
   ⟨"Series", 10, 9, 90, 20, 90, 0.15, "Strong", "", "Low"⟩]

end ConcreteInputs

section RoundingBounds

variable {α : Type} [LinearOrderedField α] [FloorRing α]

theorem roundHalfEven_intCast (n : ℤ) : roundHalfEven (n : α) = n := by
  have h0 : (0 : α) < 1/2 := by norm_num
  simp [roundHalfEven, Int.fract_intCast, h0]

theorem roundHalfEven_mono {x y : α} (h : x ≤ y) :
    roundHalfEven x ≤ roundHalfEven y := by
  have hf : ⌊x⌋ ≤ ⌊y⌋ := Int.floor_le_floor h
  by_cases hxy : ⌊x⌋ = ⌊y⌋
  · have hfr : Int.fract x ≤ Int.fract y := by
      have hx : Int.fract x = x - ⌊x⌋ := (Int.self_sub_floor x).symm
      have hy : Int.fract y = y - ⌊y⌋ := (Int.self_sub_floor y).symm
      rw [hx, hy, hxy]
      have : ((⌊y⌋ : α)) = (⌊y⌋ : α) := rfl
      linarith
    unfold roundHalfEven
    split_ifs with h1 h2 h3 h4 h5 h6 h7 h8 h9 h10 h11 <;>
      first
        | omega
        | (exfalso; linarith)
  · have hlt : ⌊x⌋ < ⌊y⌋ := lt_of_le_of_ne hf hxy
    unfold roundHalfEven
    split_ifs <;> omega

theorem le_roundHalfEven (x : α) : x - 1/2 ≤ (roundHalfEven x : α) := by
  have hfl : (⌊x⌋ : α) ≤ x := Int.floor_le x
  have hfr : Int.fract x = x - ⌊x⌋ := (Int.self_sub_floor x).symm
  have hlt : Int.fract x < 1 := Int.fract_lt_one x
  unfold roundHalfEven
  split_ifs with h1 h2 h3 <;> push_cast <;> linarith

theorem roundHalfEven_le (x : α) : (roundHalfEven x : α) ≤ x + 1/2 := by
  have hfl : (⌊x⌋ : α) ≤ x := Int.floor_le x
  have hfr : Int.fract x = x - ⌊x⌋ := (Int.self_sub_floor x).symm
  have hlt : Int.fract x < 1 := Int.fract_lt_one x
  unfold roundHalfEven
  split_ifs with h1 h2 h3 <;> push_cast <;> linarith

theorem pyRound_mono {x y : α} (n : ℕ) (h : x ≤ y) :
    pyRound x n ≤ pyRound y n := by
  have hp : (0 : α) < (10 : α) ^ n := by positivity
  have hm : x * (10 : α) ^ n ≤ y * (10 : α) ^ n := by
    exact mul_le_mul_of_nonneg_right h (le_of_lt hp)
  have := roundHalfEven_mono hm
  unfold pyRound
  have hcast : ((roundHalfEven (x * (10 : α) ^ n) : ℤ) : α) ≤
      ((roundHalfEven (y * (10 : α) ^ n) : ℤ) : α) := by exact_mod_cast this
  exact (div_le_div_iff_of_pos_right hp).mpr hcast

theorem pyRound_nonneg {x : α} (n : ℕ) (h : 0 ≤ x) : 0 ≤ pyRound x n := by
  have h0 : (0 : α) ≤ x * (10 : α) ^ n := by positivity
  have := roundHalfEven_mono (α := α) (x := ((0 : ℤ) : α)) (y := x * (10 : α) ^ n)
    (by push_cast; exact h0)
  rw [roundHalfEven_intCast] at this
  unfold pyRound
  have hcast : (0 : α) ≤ ((roundHalfEven (x * (10 : α) ^ n) : ℤ) : α) := by
    exact_mod_cast this
  positivity

theorem pyRound_le_one {x : α} (n : ℕ) (h : x ≤ 1) : pyRound x n ≤ 1 := by
  have hpow : (0 : α) < (10 : α) ^ n := by positivity
  have h1 : x * (10 : α) ^ n ≤ (((10 : ℤ) ^ n : ℤ) : α) := by
    push_cast
    nlinarith
  have := roundHalfEven_mono h1
  rw [roundHalfEven_intCast] at this
  have hcast : ((roundHalfEven (x * (10 : α) ^ n) : ℤ) : α) ≤ (10 : α) ^ n := by
    exact_mod_cast this
  unfold pyRound
  rw [div_le_one hpow]
  exact hcast

end RoundingBounds

/-- C1: for accuracy in [0,100], avg_time ≥ 0 and consistency in
[0,100], `calculate_weakness_score` equals
`round(0.5*((100-accuracy)/100) + 0.3*min(avg_time/120, 1.0) +
0.2*((100-consistency)/100), 2)`, lies in [0,1], and takes the values
0.0 at (100, 0, 100) and 1.0 at (0, 120, 0). -/
theorem C1_weakness_score_contract :
    (∀ a t c : ℚ, 0 ≤ a → a ≤ 100 → 0 ≤ t → 0 ≤ c → c ≤ 100 →
      calculate_weakness_score a t c =
        pyRound (0.5 * ((100 - a) / 100) + 0.3 * min (t / 120) 1.0 +
          0.2 * ((100 - c) / 100)) 2 ∧
      0 ≤ calculate_weakness_score a t c ∧
      calculate_weakness_score a t c ≤ 1) ∧
    calculate_weakness_score (100 : ℚ) 0 100 = 0 ∧
    calculate_weakness_score (0 : ℚ) 120 0 = 1 := by
  refine ⟨fun a t c ha0 ha1 ht hc0 hc1 => ?_, ?_, ?_⟩
  · have hform : calculate_weakness_score a t c =
        pyRound (0.5 * ((100 - a) / 100) + 0.3 * min (t / 120) 1.0 +
          0.2 * ((100 - c) / 100)) 2 := by
      simp only [calculate_weakness_score]
      ring_nf
    refine ⟨hform, ?_, ?_⟩
    · rw [hform]
      apply pyRound_nonneg
      have htw0 : (0 : ℚ) ≤ min (t / 120) 1.0 :=
        le_min (by positivity) (by norm_num)
      have haw0 : (0 : ℚ) ≤ (100 - a) / 100 := by linarith
      have hcw0 : (0 : ℚ) ≤ (100 - c) / 100 := by linarith
      linarith
    · rw [hform]
      apply pyRound_le_one
      have htw1 : min (t / 120) 1.0 ≤ 1 := by
        have := min_le_right (t / 120) (1.0 : ℚ)
        norm_num at this ⊢
        try linarith
      have haw1 : (100 - a) / 100 ≤ 1 := by linarith
      have hcw1 : (100 - c) / 100 ≤ 1 := by linarith
      have htw0 : (0 : ℚ) ≤ min (t / 120) 1.0 :=
        le_min (by positivity) (by norm_num)
      have haw0 : (0 : ℚ) ≤ (100 - a) / 100 := by linarith
      have hcw0 : (0 : ℚ) ≤ (100 - c) / 100 := by linarith
      linarith
  · norm_num [calculate_weakness_score, pyRound, roundHalfEven]
  · norm_num [calculate_weakness_score, pyRound, roundHalfEven]

/-- Witness for C1 at (accuracy, avg_time, consistency) = (50, 60, 50). -/
theorem C1_weakness_score_contract_witness :
    calculate_weakness_score (50 : ℚ) 60 50 =
      pyRound (0.5 * ((100 - (50 : ℚ)) / 100) + 0.3 * min ((60 : ℚ) / 120) 1.0 +
        0.2 * ((100 - (50 : ℚ)) / 100)) 2 ∧
    0 ≤ calculate_weakness_score (50 : ℚ) 60 50 ∧
    calculate_weakness_score (50 : ℚ) 60 50 ≤ 1 :=
  C1_weakness_score_contract.1 50 60 50 (by norm_num) (by norm_num)
    (by norm_num) (by norm_num) (by norm_num)

/-- C3: the status/priority classification is Strong/Low for score
< 0.3, Moderate/Medium for 0.3 ≤ score < 0.6, Weak/High for score
≥ 0.6; in particular 0.3 classifies Moderate, 0.29 Strong, 0.6 Weak. -/
theorem C3_classification_bands :
    (∀ s : ℚ,
      (s < 0.3 → classify s = ("Strong", "", "Low")) ∧
      (0.3 ≤ s → s < 0.6 → classify s = ("Moderate", "", "Medium")) ∧
      (0.6 ≤ s → classify s = ("Weak", "", "High"))) ∧
    classify (0.3 : ℚ) = ("Moderate", "", "Medium") ∧
    classify (0.29 : ℚ) = ("Strong", "", "Low") ∧
    classify (0.6 : ℚ) = ("Weak", "", "High") := by
  refine ⟨fun s => ⟨fun h1 => ?_, fun h2 h3 => ?_, fun h4 => ?_⟩, ?_, ?_, ?_⟩
  · rw [classify, if_pos h1]
  · rw [classify, if_neg (by linarith), if_pos h3]
  · rw [classify, if_neg (by linarith), if_neg (by linarith)]
  · norm_num [classify]
  · norm_num [classify]
  · norm_num [classify]

/-- Witness for C3 at s = 0.45 (the Moderate band). -/
theorem C3_classification_bands_witness :
    classify (0.45 : ℚ) = ("Moderate", "", "Medium") :=
  (C3_classification_bands.1 0.45).2.1 (by norm_num) (by norm_num)

/-- C4: with avg_time and consistency fixed, the weakness score is
non-increasing in accuracy. -/
theorem C4_score_antitone_in_accuracy :
    ∀ t c a1 a2 : ℚ, 0 ≤ t → 0 ≤ c → c ≤ 100 → 0 ≤ a1 → a1 ≤ a2 →
      a2 ≤ 100 →
      calculate_weakness_score a2 t c ≤ calculate_weakness_score a1 t c := by
  intro t c a1 a2 _ _ _ _ h12 _
  simp only [calculate_weakness_score]
  apply pyRound_mono
  have : (100 - a2) / 100 ≤ (100 - a1) / 100 := by linarith
  nlinarith [this]

/-- Witness for C4 at t = 60, c = 50, a1 = 20, a2 = 80. -/
theorem C4_score_antitone_in_accuracy_witness :
    calculate_weakness_score (80 : ℚ) 60 50 ≤
      calculate_weakness_score (20 : ℚ) 60 50 :=
  C4_score_antitone_in_accuracy 60 50 20 80 (by norm_num) (by norm_num)
    (by norm_num) (by norm_num) (by norm_num) (by norm_num)

/-- C5: with no attempt history `get_topic_statistics` returns the
empty list, and `generate_recommendations` on the empty list returns
all three buckets empty with the fixed start-practicing message. -/
theorem C5_empty_history :
    get_topic_statistics [] = [] ∧
    generate_recommendations ([] : List (TopicSummary ℝ)) =
      ⟨[], [], [], "Start practicing to get personalized recommendations!"⟩ :=
  ⟨rfl, rfl⟩

/-- C7: for a High-priority topic the reason/suggestion variant is
selected by the ordered rules accuracy < 40, then avg_time > 90, then
inconsistency. -/
theorem C7_high_priority_reason_selection :
    ∀ t : TopicSummary ℚ, t.priority = "High" →
      (t.accuracy < 40 →
        recommendationFor t =
          ⟨t.topic, Reason.veryLowAccuracy t.accuracy,
            Suggestion.startEasy t.topic⟩) ∧
      (40 ≤ t.accuracy → 90 < t.avg_time →
        recommendationFor t =
          ⟨t.topic, Reason.tooSlow t.avg_time,
            Suggestion.speedPractice t.topic⟩) ∧
      (40 ≤ t.accuracy → t.avg_time ≤ 90 →
        recommendationFor t =
          ⟨t.topic, Reason.inconsistent,
            Suggestion.regularPractice t.topic⟩) := by
  intro t hp
  refine ⟨fun h1 => ?_, fun h2 h3 => ?_, fun h4 h5 => ?_⟩
  · rw [recommendationFor, if_pos hp, if_pos h1]
  · rw [recommendationFor, if_pos hp, if_neg (by linarith), if_pos h3]
  · rw [recommendationFor, if_pos hp, if_neg (by linarith),
      if_neg (by linarith)]

theorem partitionByPriority_length {α : Type} [LinearOrderedField α] :
    ∀ ts : List (TopicSummary α),
      (partitionByPriority ts).1.length + (partitionByPriority ts).2.1.length +
        (partitionByPriority ts).2.2.length = ts.length := by
  intro ts
  induction ts with
  | nil => simp [partitionByPriority]
  | cons t rest ih =>
    by_cases h1 : t.priority = "High"
    · simp only [partitionByPriority, if_pos h1, List.length_cons]
      omega
    · by_cases h2 : t.priority = "Medium"
      · simp only [partitionByPriority, if_neg h1, if_pos h2, List.length_cons]
        omega
      · simp only [partitionByPriority, if_neg h1, if_neg h2, List.length_cons]
        omega

theorem partitionByPriority_spec {α : Type} [LinearOrderedField α] :
    ∀ ts : List (TopicSummary α),
      (partitionByPriority ts).1 =
        (ts.filter (fun t => t.priority == "High")).map recommendationFor ∧
      (partitionByPriority ts).2.1 =
        (ts.filter (fun t => t.priority == "Medium")).map recommendationFor ∧
      (partitionByPriority ts).2.2 =
        (ts.filter (fun t =>
          !(t.priority == "High") && !(t.priority == "Medium"))).map
            recommendationFor := by
  intro ts
  induction ts with
  | nil => simp [partitionByPriority]
  | cons t rest ih =>
    obtain ⟨ih1, ih2, ih3⟩ := ih
    by_cases h1 : t.priority = "High"
    · simp [partitionByPriority, h1, ih1, ih2, ih3, List.filter_cons]
    · by_cases h2 : t.priority = "Medium"
      · simp [partitionByPriority, h1, h2, ih1, ih2, ih3, List.filter_cons]
      · simp [partitionByPriority, h1, h2, ih1, ih2, ih3, List.filter_cons]

theorem generate_recommendations_cons {α : Type} [LinearOrderedField α]
    (t : TopicSummary α) (rest : List (TopicSummary α)) :
    generate_recommendations (t :: rest) =
      ⟨(partitionByPriority (t :: rest)).1,
        (partitionByPriority (t :: rest)).2.1,
        (partitionByPriority (t :: rest)).2.2,
        if !(partitionByPriority (t :: rest)).1.isEmpty then
          "Focus on " ++ toString (partitionByPriority (t :: rest)).1.length ++
            " weak area(s) to improve quickly!"
        else if !(partitionByPriority (t :: rest)).2.1.isEmpty then
          "Good progress! Work on moderate areas to reach excellence."
        else
          "Excellent! You\x27re strong in all areas. Keep practicing!"⟩ := rfl

/-- C9: `generate_recommendations` partitions its input by priority
(High, Medium, everything else), preserving input order inside each
bucket, with bucket sizes summing to the input length; on non-empty
input the message is the weak-areas message when high_priority is
non-empty, the good-progress message when only medium_priority is
non-empty, and the excellent message otherwise. (The empty input takes
the separate start-practicing branch, settled by C5.) -/
theorem C9_bucket_partition :
    ∀ ts : List (TopicSummary ℚ),
      (generate_recommendations ts).high_priority =
        (ts.filter (fun t => t.priority == "High")).map recommendationFor ∧
      (generate_recommendations ts).medium_priority =
        (ts.filter (fun t => t.priority == "Medium")).map recommendationFor ∧
      (generate_recommendations ts).maintain =
        (ts.filter (fun t =>
          !(t.priority == "High") && !(t.priority == "Medium"))).map
            recommendationFor ∧
      (generate_recommendations ts).high_priority.length +
        (generate_recommendations ts).medium_priority.length +
        (generate_recommendations ts).maintain.length = ts.length ∧
      (ts ≠ [] →
        ((generate_recommendations ts).high_priority ≠ [] →
          (generate_recommendations ts).message =
            "Focus on " ++
              toString (generate_recommendations ts).high_priority.length ++
              " weak area(s) to improve quickly!") ∧
        ((generate_recommendations ts).high_priority = [] →
          (generate_recommendations ts).medium_priority ≠ [] →
          (generate_recommendations ts).message =
            "Good progress! Work on moderate areas to reach excellence.") ∧
        ((generate_recommendations ts).high_priority = [] →
          (generate_recommendations ts).medium_priority = [] →
          (generate_recommendations ts).message =
            "Excellent! You\x27re strong in all areas. Keep practicing!")) := by
  intro ts
  cases ts with
  | nil => simp [generate_recommendations]
  | cons t rest =>
    obtain ⟨h1, h2, h3⟩ := partitionByPriority_spec (t :: rest)
    have h4 := partitionByPriority_length (t :: rest)
    rw [generate_recommendations_cons]
    refine ⟨h1, h2, h3, h4, fun _ => ⟨?_, ?_, ?_⟩⟩
    · intro hne
      have hne' : (partitionByPriority (t :: rest)).1 ≠ [] := hne
      cases hE : (partitionByPriority (t :: rest)).1 with
      | nil => exact absurd hE hne'
      | cons q qs => simp [hE]
    · intro hhe hme
      have hhe' : (partitionByPriority (t :: rest)).1 = [] := hhe
      have hme' : (partitionByPriority (t :: rest)).2.1 ≠ [] := hme
      cases hE : (partitionByPriority (t :: rest)).2.1 with
      | nil => exact absurd hE hme'
      | cons q qs => simp [hhe', hE]
    · intro hhe hme
      have hhe' : (partitionByPriority (t :: rest)).1 = [] := hhe
      have hme' : (partitionByPriority (t :: rest)).2.1 = [] := hme
      simp [hhe', hme']

/-- Witness for C9 on `c9Stats`: the non-empty-input hypothesis and the
non-empty high bucket hypothesis are discharged concretely. -/
theorem C9_bucket_partition_witness :
    (generate_recommendations c9Stats).message =
      "Focus on " ++
        toString (generate_recommendations c9Stats).high_priority.length ++
        " weak area(s) to improve quickly!" :=
  (((C9_bucket_partition c9Stats).2.2.2.2 (by simp [c9Stats])).1) (by decide)

theorem filter_head_max {γ : Type} (R : γ → γ → Prop) (p : γ → Bool) :
    ∀ (l : List γ) (w : γ) (ws : List γ), List.Pairwise R l →
      l.filter p = w :: ws → ∀ t ∈ l, p t = true → w = t ∨ R w t := by
  intro l
  induction l with
  | nil => intro w ws _ hf; simp at hf
  | cons s rest ih =>
    intro w ws hpw hf t ht hpt
    rw [List.filter_cons] at hf
    rcases List.mem_cons.mp ht with rfl | htr
    · rw [if_pos hpt] at hf
      injection hf with hw _
      exact Or.inl hw.symm
    · cases hps : p s with
      | true =>
        rw [if_pos hps] at hf
        injection hf with hw _
        subst hw
        exact Or.inr ((List.pairwise_cons.mp hpw).1 t htr)
      | false =>
        rw [if_neg (by simp [hps])] at hf
        exact ih w ws (List.pairwise_cons.mp hpw).2 hf t htr hpt

/-- C10: `generate_adaptive_questions` selects topic and difficulty
from the topic statistics: empty statistics request Logical
Reasoning/Easy; with some Weak or Moderate topic it targets the first
such topic of the weakness-descending list (which then has maximal
weakness among Weak/Moderate topics), at Easy below accuracy 40, Medium
below 70 and Hard otherwise; with all topics Strong it targets the
head, i.e. overall weakest, topic at Medium. -/
theorem C10_adaptive_selection :
    ∀ (env : GroqEnv) (J : JsonLib) (settings : Settings) (n : ℕ) (fb : Bool)
      (stats : List (TopicSummary ℚ)),
      List.Pairwise
        (fun a b : TopicSummary ℚ => b.weakness_score ≤ a.weakness_score)
        stats →
      (stats = [] →
        adaptiveFromStats env J settings stats n fb =
          generate_questions env J settings "Logical Reasoning" "Easy" n fb) ∧
      (∀ w ws,
        stats.filter (fun t => t.status == "Weak" || t.status == "Moderate") =
          w :: ws →
        adaptiveFromStats env J settings stats n fb =
          generate_questions env J settings w.topic
            (if w.accuracy < 40 then "Easy"
              else if w.accuracy < 70 then "Medium" else "Hard") n fb ∧
        (∀ t ∈ stats, (t.status = "Weak" ∨ t.status = "Moderate") →
          t.weakness_score ≤ w.weakness_score)) ∧
      (∀ t0 rest, stats = t0 :: rest → (∀ t ∈ stats, t.status = "Strong") →
        adaptiveFromStats env J settings stats n fb =
          generate_questions env J settings t0.topic "Medium" n fb ∧
        (∀ t ∈ stats, t.weakness_score ≤ t0.weakness_score)) := by
  intro env J settings n fb stats hsorted
  refine ⟨fun he => ?_, fun w ws hf => ⟨?_, ?_⟩, fun t0 rest he hall => ⟨?_, ?_⟩⟩
  · subst he; rfl
  · cases stats with
    | nil => simp at hf
    | cons t0 rest =>
      simp only [adaptiveFromStats]
      rw [hf]
  · intro t ht hstat
    have := filter_head_max
      (fun a b : TopicSummary ℚ => b.weakness_score ≤ a.weakness_score)
      (fun t => t.status == "Weak" || t.status == "Moderate") stats w ws
      hsorted hf t ht (by simp; tauto)
    rcases this with rfl | hle
    · exact le_refl _
    · exact hle
  · subst he
    have hnil :
        (t0 :: rest).filter
          (fun t => t.status == "Weak" || t.status == "Moderate") = [] := by
      apply List.filter_eq_nil_iff.mpr
      intro t ht
      have := hall t ht
      simp [this]
    simp only [adaptiveFromStats]
    rw [hnil]
  · subst he
    intro t ht
    rcases List.mem_cons.mp ht with rfl | htr
    · exact le_refl _
    · exact (List.pairwise_cons.mp hsorted).1 t htr

/-- Witness for C10 on `c10Stats`: sortedness and the concrete filter
equation are discharged at the concrete input. -/
theorem C10_adaptive_selection_witness :
    adaptiveFromStats ⟨false, fun _ _ => CallResult.raised⟩
        ⟨fun _ => none, fun _ => none⟩ ⟨"", ""⟩ c10Stats 5 true =
      generate_questions ⟨false, fun _ _ => CallResult.raised⟩
        ⟨fun _ => none, fun _ => none⟩ ⟨"", ""⟩ "Algebra"
        (if (35 : ℚ) < 40 then "Easy"
          else if (35 : ℚ) < 70 then "Medium" else "Hard") 5 true :=
  ((C10_adaptive_selection ⟨false, fun _ _ => CallResult.raised⟩
      ⟨fun _ => none, fun _ => none⟩ ⟨"", ""⟩ 5 true c10Stats
      (by norm_num [c10Stats, List.pairwise_cons])).2.1
    ⟨"Algebra", 10, 3, 35, 80, 40, 0.7, "Weak", "", "High"⟩ [] rfl).1

theorem runAttempt_none_of_raised (env : GroqEnv) (J : JsonLib)
    (hcall : ∀ m a, env.call m a = CallResult.raised)
    (m topic difficulty : String) (n a : ℕ) :
    runAttempt env J m topic difficulty n a = none := by
  unfold runAttempt
  rw [hcall]

theorem tryModels_none_of_raised (env : GroqEnv) (J : JsonLib)
    (topic difficulty : String) (n : ℕ)
    (hcall : ∀ m a, env.call m a = CallResult.raised) :
    ∀ ms, tryModels env J topic difficulty n ms = none := by
  intro ms
  induction ms with
  | nil => rfl
  | cons m rest ih =>
    unfold tryModels
    rw [runAttempt_none_of_raised env J hcall,
      runAttempt_none_of_raised env J hcall, ih]

theorem formatFallback_ne_nil (topic : String) (i : ℕ)
    (l : List BankQuestion) (hl : l ≠ []) :
    formatFallback topic i l ≠ [] := by
  cases l with
  | nil => exact absurd rfl hl
  | cons q rest => simp [formatFallback]

theorem take_ne_nil_of_pos {γ : Type} (l : List γ) (n : ℕ) (hl : l ≠ [])
    (hn : 1 ≤ n) : l.take n ≠ [] := by
  cases l with
  | nil => exact absurd rfl hl
  | cons a as =>
    cases n with
    | zero => omega
    | succ m => simp [List.take]

theorem formatFallback_mem (topic : String) :
    ∀ (i : ℕ) (l : List BankQuestion) (q : Question),
      q ∈ formatFallback topic i l →
      ∃ b ∈ l, q.source = "Static Fallback" ∧
        q.question = JVal.jstr b.question ∧
        q.options = b.options.map JVal.jstr ∧
        q.correct_answer = (b.correct_answer : ℤ) ∧
        q.topic = b.topic ∧ q.difficulty = b.difficulty := by
  intro i l
  induction l generalizing i with
  | nil => intro q hq; simp [formatFallback] at hq
  | cons b0 rest ih =>
    intro q hq
    rcases List.mem_cons.mp hq with rfl | htail
    · exact ⟨b0, List.mem_cons_self b0 rest, rfl, rfl, rfl, rfl, rfl, rfl⟩
    · obtain ⟨b, hb, hrest⟩ := ih (i + 1) q htail
      exact ⟨b, List.mem_cons_of_mem b0 hb, hrest⟩

/-- C6: when the Groq client is unavailable or every completion call
raises, `generate_questions` with fallback enabled returns exactly the
non-empty static-fallback list, whose every question carries source
"Static Fallback" and the payload of a static-bank entry; with fallback
disabled it returns an error. -/
theorem C6_fallback_invariant :
    ∀ (env : GroqEnv) (J : JsonLib) (settings : Settings)
      (topic difficulty : String) (n : ℕ), 1 ≤ n →
      (_get_groq_client env settings = none ∨
        ∀ m a, env.call m a = CallResult.raised) →
      generate_questions env J settings topic difficulty n true =
        Except.ok (_get_static_fallback_questions topic difficulty n) ∧
      _get_static_fallback_questions topic difficulty n ≠ [] ∧
      (∀ q ∈ _get_static_fallback_questions topic difficulty n,
        q.source = "Static Fallback" ∧
        ∃ b ∈ get_all_questions,
          q.question = JVal.jstr b.question ∧
          q.options = b.options.map JVal.jstr ∧
          q.correct_answer = (b.correct_answer : ℤ) ∧
          q.topic = b.topic ∧ q.difficulty = b.difficulty) ∧
      ∃ msg, generate_questions env J settings topic difficulty n false =
        Except.error msg := by
  intro env J settings topic difficulty n hn H
  have hbranch :
      generate_questions env J settings topic difficulty n true =
        Except.ok (_get_static_fallback_questions topic difficulty n) ∧
      ∃ msg, generate_questions env J settings topic difficulty n false =
        Except.error msg := by
    rcases H with hnone | hcall
    · unfold generate_questions
      rw [hnone]
      exact ⟨rfl, _, rfl⟩
    · unfold generate_questions
      cases hc : _get_groq_client env settings with
      | none => exact ⟨rfl, _, rfl⟩
      | some client =>
        rw [tryModels_none_of_raised env J topic difficulty n hcall]
        exact ⟨rfl, _, rfl⟩
  refine ⟨hbranch.1, ?_, ?_, hbranch.2⟩
  · unfold _get_static_fallback_questions
    apply formatFallback_ne_nil
    apply take_ne_nil_of_pos _ _ _ hn
    by_cases hE :
        (get_all_questions.filter
          (fun q => strLower q.topic == strLower topic)).isEmpty = true
    · rw [if_pos hE]
      simp [get_all_questions, QUIZ_QUESTIONS]
    · rw [if_neg hE]
      intro hc
      rw [hc] at hE
      exact hE rfl
  · intro q hq
    unfold _get_static_fallback_questions at hq
    obtain ⟨b, hb, hsrc, hrest⟩ := formatFallback_mem topic 1 _ q hq
    have hbq : b ∈ get_all_questions := by
      have hb' := List.take_subset _ _ hb
      by_cases hE :
          (get_all_questions.filter
            (fun q => strLower q.topic == strLower topic)).isEmpty = true
      · rwa [if_pos hE] at hb'
      · rw [if_neg hE] at hb'
        exact List.filter_subset'
          (p := fun q => strLower q.topic == strLower topic)
          get_all_questions hb'
    exact ⟨hsrc, b, hbq, hrest⟩

/-- Witness for C6: an environment without the groq package, a json
stub, empty settings, the default topic and question count. -/
theorem C6_fallback_invariant_witness :
    generate_questions ⟨false, fun _ _ => CallResult.raised⟩
        ⟨fun _ => none, fun _ => none⟩ ⟨"", ""⟩ "Logical Reasoning" "Easy" 5
        true =
      Except.ok
        (_get_static_fallback_questions "Logical Reasoning" "Easy" 5) ∧
    _get_static_fallback_questions "Logical Reasoning" "Easy" 5 ≠ [] ∧
    (∀ q ∈ _get_static_fallback_questions "Logical Reasoning" "Easy" 5,
      q.source = "Static Fallback" ∧
      ∃ b ∈ get_all_questions,
        q.question = JVal.jstr b.question ∧
        q.options = b.options.map JVal.jstr ∧
        q.correct_answer = (b.correct_answer : ℤ) ∧
        q.topic = b.topic ∧ q.difficulty = b.difficulty) ∧
    ∃ msg, generate_questions ⟨false, fun _ _ => CallResult.raised⟩
        ⟨fun _ => none, fun _ => none⟩ ⟨"", ""⟩ "Logical Reasoning" "Easy" 5
        false =
      Except.error msg :=
  C6_fallback_invariant ⟨false, fun _ _ => CallResult.raised⟩
    ⟨fun _ => none, fun _ => none⟩ ⟨"", ""⟩ "Logical Reasoning" "Easy" 5
    (by norm_num) (Or.inl rfl)

theorem mem_insertDescBy {γ β : Type} [LinearOrder β] (key : γ → β)
    (a x : γ) : ∀ l : List γ, x ∈ insertDescBy key a l ↔ x = a ∨ x ∈ l := by
  intro l
  induction l with
  | nil => simp [insertDescBy]
  | cons b rest ih =>
    simp only [insertDescBy]
    split
    · simp only [List.mem_cons, ih]
      tauto
    · simp only [List.mem_cons]
      try tauto

theorem mem_sortByKeyDesc {γ β : Type} [LinearOrder β] (key : γ → β)
    (x : γ) : ∀ l : List γ, x ∈ sortByKeyDesc key l ↔ x ∈ l := by
  intro l
  induction l with
  | nil => simp [sortByKeyDesc]
  | cons a rest ih =>
    simp only [sortByKeyDesc, mem_insertDescBy, ih, List.mem_cons]

theorem mem_get_topic_statistics {attempts : List Attempt}
    {s : TopicSummary ℝ} (hs : s ∈ get_topic_statistics attempts) :
    ∃ tn ∈ distinctTopics attempts, s = topicSummaryFor attempts tn := by
  cases attempts with
  | nil => simp [get_topic_statistics] at hs
  | cons a rest =>
    unfold get_topic_statistics at hs
    rw [mem_sortByKeyDesc] at hs
    obtain ⟨tn, htn, heq⟩ := List.mem_map.mp hs
    exact ⟨tn, htn, heq.symm⟩

/-- Counterexample to C2 as stated: on two attempts with flags [1, 0],
the population-standard-deviation formula of the claim yields
consistency 50, but the topic summary produced by
`get_topic_statistics` does not carry 50 — the code uses
`statistics.stdev`, the sample standard deviation. -/
theorem C2_counterexample :
    pyRound (consistencySpecPop [1, 0]) 1 = 50 ∧
    (get_topic_statistics c2Attempts).map (fun s => s.consistency) ≠
      [pyRound (consistencySpecPop [1, 0]) 1] := by
  have hpop : popStdev [(1 : ℝ), 0] = 1/2 := by
    have h1 : popStdev [(1 : ℝ), 0] = Real.sqrt (1/4) := by
      unfold popStdev
      norm_num [List.sum_cons, List.sum_nil, List.map_cons, List.map_nil,
        List.length_cons, List.length_nil]
    rw [h1, show (1/4 : ℝ) = (1/2 : ℝ)^2 by norm_num,
      Real.sqrt_sq (by norm_num : (0:ℝ) ≤ 1/2)]
  have hspec : consistencySpecPop [(1 : ℝ), 0] = 50 := by
    unfold consistencySpecPop
    rw [if_pos (by norm_num), hpop,
      show (100 : ℝ) - 1/2 * 100 = 50 by norm_num,
      max_eq_right (by norm_num : (0:ℝ) ≤ 50)]
  have h50 : pyRound (consistencySpecPop [(1 : ℝ), 0]) 1 = 50 := by
    rw [hspec]
    unfold pyRound
    rw [show (50 : ℝ) * 10^1 = ((500 : ℤ) : ℝ) by norm_num,
      roundHalfEven_intCast]
    norm_num
  refine ⟨h50, ?_⟩
  have hmap : (get_topic_statistics c2Attempts).map (fun s => s.consistency) =
      [pyRound (consistencyOf [1, 0]) 1] := rfl
  rw [hmap, h50]
  intro hcontra
  have hval : pyRound (consistencyOf [(1:ℝ), 0]) 1 = 50 := by
    injection hcontra
  have hsamp : sampleStdev [(1 : ℝ), 0] = Real.sqrt (1/2) := by
    unfold sampleStdev
    norm_num [List.sum_cons, List.sum_nil, List.map_cons, List.map_nil,
      List.length_cons, List.length_nil]
  have hle1 : Real.sqrt (1/2 : ℝ) ≤ 1 :=
    Real.sqrt_le_one.mpr (by norm_num)
  have hge : (0.7 : ℝ) ≤ Real.sqrt (1/2) := by
    rw [Real.le_sqrt' (by norm_num)]
    norm_num
  have hcons : consistencyOf [(1:ℝ), 0] = 100 - Real.sqrt (1/2) * 100 := by
    unfold consistencyOf
    rw [if_pos (by norm_num), hsamp,
      max_eq_right (by nlinarith : (0:ℝ) ≤ 100 - Real.sqrt (1/2) * 100)]
  have hub : pyRound (consistencyOf [(1:ℝ), 0]) 1 ≤
      (100 - Real.sqrt (1/2) * 100) + 1/20 := by
    rw [hcons]
    unfold pyRound
    have h2 := roundHalfEven_le (α := ℝ)
      ((100 - Real.sqrt (1/2) * 100) * 10^1)
    have h10 : (0:ℝ) < 10^1 := by norm_num
    rw [div_le_iff₀ h10]
    nlinarith
  rw [hval] at hub
  nlinarith

/-- C2 amended: the consistency of every topic summary is computed from
the 5 most-recent attempts of the topic (timestamp descending) as
`max(0, 100 − 100 · sample standard deviation)` of their binary
correctness flags — `statistics.stdev`, with Bessel's n−1 divisor, not
the population standard deviation — and is the fixed default 50
whenever fewer than 2 recent samples exist. -/
theorem C2_amended_sample_stdev :
    ∀ (attempts : List Attempt) (s : TopicSummary ℝ),
      s ∈ get_topic_statistics attempts →
      ∃ flags : List ℝ,
        flags = ((sortByKeyDesc (fun a => a.attempted_at)
            (attempts.filter (fun a => a.topic = s.topic))).take 5).map
              (fun a => if a.is_correct then (1 : ℝ) else 0) ∧
        s.consistency = pyRound (consistencyOf flags) 1 ∧
        (1 < flags.length →
          consistencyOf flags =
            max 0 (100 - Real.sqrt
              ((flags.map (fun x => (x - flags.sum / flags.length) ^ 2)).sum /
                ((flags.length : ℝ) - 1)) * 100)) ∧
        (flags.length ≤ 1 → consistencyOf flags = 50) := by
  intro attempts s hs
  obtain ⟨tn, htn, rfl⟩ := mem_get_topic_statistics hs
  refine ⟨_, rfl, rfl, fun h => ?_, fun h => ?_⟩
  · unfold consistencyOf
    rw [if_pos h]
    rfl
  · unfold consistencyOf
    rw [if_neg (by omega)]

/-- Witness for C2's amended statement at `c2GoodAttempts`, whose
single topic summary is a member of the aggregator output. -/
theorem C2_amended_sample_stdev_witness :
    ∃ flags : List ℝ,
      flags = ((sortByKeyDesc (fun a => a.attempted_at)
          (c2GoodAttempts.filter (fun a =>
            a.topic = (topicSummaryFor c2GoodAttempts "Algebra").topic))).take
              5).map (fun a => if a.is_correct then (1 : ℝ) else 0) ∧
      (topicSummaryFor c2GoodAttempts "Algebra").consistency =
        pyRound (consistencyOf flags) 1 ∧
      (1 < flags.length →
        consistencyOf flags =
          max 0 (100 - Real.sqrt
            ((flags.map (fun x => (x - flags.sum / flags.length) ^ 2)).sum /
              ((flags.length : ℝ) - 1)) * 100)) ∧
      (flags.length ≤ 1 → consistencyOf flags = 50) :=
  C2_amended_sample_stdev c2GoodAttempts
    (topicSummaryFor c2GoodAttempts "Algebra")
    (by
      have h : get_topic_statistics c2GoodAttempts =
          [topicSummaryFor c2GoodAttempts "Algebra"] := rfl
      rw [h]
      exact List.mem_singleton_self _)

/-- Witness for C7: a High-priority topic with accuracy 35 gets the
low-accuracy variant. -/
theorem C7_high_priority_reason_selection_witness :
    recommendationFor
        (⟨"Algebra", 20, 7, 35, 50, 40, 0.62, "Weak", "", "High"⟩ :
          TopicSummary ℚ) =
      ⟨"Algebra", Reason.veryLowAccuracy 35, Suggestion.startEasy "Algebra"⟩ :=
  (C7_high_priority_reason_selection
      ⟨"Algebra", 20, 7, 35, 50, 40, 0.62, "Weak", "", "High"⟩ rfl).1
    (by norm_num)

theorem listStartsWith_length :
    ∀ (xs l : List Char), listStartsWith xs l = true → xs.length ≤ l.length := by
  intro xs
  induction xs with
  | nil => intro l _; simp
  | cons x xr ih =>
    intro l h
    cases l with
    | nil => simp [listStartsWith] at h
    | cons c cs =>
      simp only [listStartsWith, Bool.and_eq_true] at h
      have := ih cs h.2
      simp only [List.length_cons]
      omega

theorem listStartsWith_false_of_ne {p c : Char} (ps rest : List Char)
    (h : c ≠ p) : listStartsWith (p :: ps) (c :: rest) = false := by
  have hpc : (p == c) = false := beq_eq_false_iff_ne.mpr (Ne.symm h)
  simp [listStartsWith, hpc]

theorem reSubStar_short (p : Char) (ps : List Char) :
    ∀ u : List Char, u.length < (p :: ps).length → reSubStar p ps u = u := by
  intro u
  induction u with
  | nil => intro _; rw [reSubStar]
  | cons c rest ih =>
    intro hlen
    rw [reSubStar]
    rw [if_neg ?hc]
    case hc =>
      intro hst
      have := listStartsWith_length _ _ hst
      omega
    rw [ih (by simp only [List.length_cons] at hlen ⊢; omega)]

theorem reSubStar_no_bt (ps : List Char) :
    ∀ u : List Char, (∀ c ∈ u, c ≠ btChar) → reSubStar btChar ps u = u := by
  intro u
  induction u with
  | nil => intro _; rw [reSubStar]
  | cons c rest ih =>
    intro hbt
    rw [reSubStar,
      if_neg (by
        rw [listStartsWith_false_of_ne ps rest
          (hbt c (List.mem_cons_self c rest))]
        simp)]
    rw [ih (fun d hd => hbt d (List.mem_cons_of_mem c hd))]

theorem reSubStar_append_no_bt (ps : List Char) :
    ∀ u v : List Char, (∀ c ∈ u, c ≠ btChar) →
      reSubStar btChar ps (u ++ v) = u ++ reSubStar btChar ps v := by
  intro u
  induction u with
  | nil => intro v _; simp
  | cons c rest ih =>
    intro v hbt
    rw [List.cons_append, reSubStar,
      if_neg (by
        rw [listStartsWith_false_of_ne ps (rest ++ v)
          (hbt c (List.mem_cons_self c rest))]
        simp)]
    rw [ih v (fun d hd => hbt d (List.mem_cons_of_mem c hd))]
    rfl

theorem dropWhile_append_nil {p : Char → Bool} :
    ∀ u v : List Char, u.dropWhile p = [] →
      (u ++ v).dropWhile p = v.dropWhile p := by
  intro u
  induction u with
  | nil => intro v _; simp
  | cons c cs ih =>
    intro v h
    by_cases hc : p c = true
    · rw [List.dropWhile_cons, if_pos hc] at h
      rw [List.cons_append, List.dropWhile_cons, if_pos hc]
      exact ih v h
    · rw [List.dropWhile_cons, if_neg hc] at h
      exact absurd h (List.cons_ne_nil _ _)

theorem dropWhile_append_cons {p : Char → Bool} :
    ∀ u v c rest, u.dropWhile p = c :: rest →
      (u ++ v).dropWhile p = c :: (rest ++ v) := by
  intro u
  induction u with
  | nil => intro v c rest h; simp at h
  | cons d ds ih =>
    intro v c rest h
    by_cases hd : p d = true
    · rw [List.dropWhile_cons, if_pos hd] at h
      rw [List.cons_append, List.dropWhile_cons, if_pos hd]
      exact ih v c rest h
    · rw [List.dropWhile_cons, if_neg hd] at h
      injection h with h1 h2
      subst h1
      subst h2
      rw [List.cons_append, List.dropWhile_cons, if_neg hd]

theorem dropWhile_head_not {p : Char → Bool} :
    ∀ (l : List Char) (c : Char) (rest : List Char),
      l.dropWhile p = c :: rest → p c = false := by
  intro l
  induction l with
  | nil => intro c rest h; simp at h
  | cons d ds ih =>
    intro c rest h
    by_cases hd : p d = true
    · rw [List.dropWhile_cons, if_pos hd] at h
      exact ih c rest h
    · rw [List.dropWhile_cons, if_neg hd] at h
      injection h with h1 _
      subst h1
      exact eq_false_of_ne_true hd

theorem mem_of_mem_dropWhile {p : Char → Bool} :
    ∀ (l : List Char) (c : Char), c ∈ l.dropWhile p → c ∈ l := by
  intro l
  induction l with
  | nil => intro c h; simp at h
  | cons d ds ih =>
    intro c h
    by_cases hd : p d = true
    · rw [List.dropWhile_cons, if_pos hd] at h
      exact List.mem_cons_of_mem d (ih c h)
    · rw [List.dropWhile_cons, if_neg hd] at h
      exact h

theorem smartQuoteCharB_facts {a b : Char} (h : smartQuoteCharB a b = true) :
    isPySpace b = isPySpace a ∧ (a ≠ btChar → b ≠ btChar) ∧
      fixQuoteChar b = fixQuoteChar a := by
  unfold smartQuoteCharB at h
  by_cases ha : a = dqChar
  · rw [if_pos ha] at h
    subst ha
    have h' : b = ldquoChar ∨ b = rdquoChar := by simpa using h
    rcases h' with hb | hb
    · subst hb
      exact ⟨by decide, fun _ => by decide, by decide⟩
    · subst hb
      exact ⟨by decide, fun _ => by decide, by decide⟩
  · rw [if_neg ha] at h
    by_cases ha2 : a = sqChar
    · rw [if_pos ha2] at h
      subst ha2
      have h' : b = lsquoChar ∨ b = rsquoChar := by simpa using h
      rcases h' with hb | hb
      · subst hb
        exact ⟨by decide, fun _ => by decide, by decide⟩
      · subst hb
        exact ⟨by decide, fun _ => by decide, by decide⟩
    · rw [if_neg ha2, beq_iff_eq] at h
      subst h
      exact ⟨rfl, fun hc => hc, rfl⟩

theorem smartQuotedB_no_bt :
    ∀ t t', smartQuotedB t t' = true → (∀ c ∈ t, c ≠ btChar) →
      ∀ c ∈ t', c ≠ btChar := by
  intro t
  induction t with
  | nil =>
    intro t' h _
    cases t' with
    | nil => intro c hc; simp at hc
    | cons b bs => simp [smartQuotedB] at h
  | cons a as ih =>
    intro t' h hbt
    cases t' with
    | nil => simp [smartQuotedB] at h
    | cons b bs =>
      simp only [smartQuotedB, Bool.and_eq_true] at h
      intro c hc
      rcases List.mem_cons.mp hc with rfl | hcs
      · exact (smartQuoteCharB_facts h.1).2.1
          (hbt a (List.mem_cons_self a as))
      · exact ih bs h.2 (fun d hd => hbt d (List.mem_cons_of_mem a hd)) c hcs

theorem smartQuotedB_mapFix :
    ∀ t t', smartQuotedB t t' = true →
      t'.map fixQuoteChar = t.map fixQuoteChar := by
  intro t
  induction t with
  | nil =>
    intro t' h
    cases t' with
    | nil => rfl
    | cons b bs => simp [smartQuotedB] at h
  | cons a as ih =>
    intro t' h
    cases t' with
    | nil => simp [smartQuotedB] at h
    | cons b bs =>
      simp only [smartQuotedB, Bool.and_eq_true] at h
      simp only [List.map_cons, (smartQuoteCharB_facts h.1).2.2, ih bs h.2]

theorem smartQuotedB_dropWhile :
    ∀ t t', smartQuotedB t t' = true →
      smartQuotedB (t.dropWhile isPySpace) (t'.dropWhile isPySpace) = true := by
  intro t
  induction t with
  | nil =>
    intro t' h
    cases t' with
    | nil => exact h
    | cons b bs => simp [smartQuotedB] at h
  | cons a as ih =>
    intro t' h
    cases t' with
    | nil => simp [smartQuotedB] at h
    | cons b bs =>
      simp only [smartQuotedB, Bool.and_eq_true] at h
      have hsp := (smartQuoteCharB_facts h.1).1
      by_cases hpa : isPySpace a = true
      · rw [List.dropWhile_cons, List.dropWhile_cons, if_pos hpa,
          if_pos (by rw [hsp]; exact hpa)]
        exact ih bs h.2
      · rw [List.dropWhile_cons, List.dropWhile_cons, if_neg hpa,
          if_neg (by rw [hsp]; exact hpa)]
        simp only [smartQuotedB, Bool.and_eq_true]
        exact ⟨h.1, h.2⟩

theorem smartQuotedB_append :
    ∀ t1 t2 t1' t2', smartQuotedB t1 t1' = true → smartQuotedB t2 t2' = true →
      smartQuotedB (t1 ++ t2) (t1' ++ t2') = true := by
  intro t1
  induction t1 with
  | nil =>
    intro t2 t1' t2' h1 h2
    cases t1' with
    | nil => simpa using h2
    | cons b bs => simp [smartQuotedB] at h1
  | cons a as ih =>
    intro t2 t1' t2' h1 h2
    cases t1' with
    | nil => simp [smartQuotedB] at h1
    | cons b bs =>
      simp only [smartQuotedB, Bool.and_eq_true] at h1
      simp only [List.cons_append, smartQuotedB, Bool.and_eq_true]
      exact ⟨h1.1, ih t2 bs t2' h1.2 h2⟩

theorem smartQuotedB_reverse :
    ∀ t t', smartQuotedB t t' = true →
      smartQuotedB t.reverse t'.reverse = true := by
  intro t
  induction t with
  | nil =>
    intro t' h
    cases t' with
    | nil => exact h
    | cons b bs => simp [smartQuotedB] at h
  | cons a as ih =>
    intro t' h
    cases t' with
    | nil => simp [smartQuotedB] at h
    | cons b bs =>
      simp only [smartQuotedB, Bool.and_eq_true] at h
      simp only [List.reverse_cons]
      exact smartQuotedB_append as.reverse [a] bs.reverse [b] (ih bs h.2)
        (by simp [smartQuotedB, h.1])

theorem smartQuotedB_pyStrip (t t' : List Char)
    (h : smartQuotedB t t' = true) :
    smartQuotedB (pyStripChars t) (pyStripChars t') = true := by
  unfold pyStripChars
  exact smartQuotedB_reverse _ _ (smartQuotedB_dropWhile _ _
    (smartQuotedB_reverse _ _ (smartQuotedB_dropWhile _ _ h)))

theorem cleanChars_no_bt (t : List Char) (hbt : ∀ c ∈ t, c ≠ btChar) :
    cleanChars t = (pyStripChars t).map fixQuoteChar := by
  unfold cleanChars
  rw [reSubStar_no_bt _ t hbt, reSubStar_no_bt _ t hbt]

theorem cleanChars_fenceWrap (t' : List Char)
    (hbt : ∀ c ∈ t', c ≠ btChar) :
    cleanChars (fenceJsonChars ++ (t' ++ fenceCloseChars)) =
      (pyStripChars t').map fixQuoteChar := by
  unfold cleanChars
  have hopen : fenceJsonChars ++ (t' ++ fenceCloseChars) =
      btChar :: btChar :: btChar :: 'j' :: 's' :: 'o' :: 'n' :: '\n' ::
        (t' ++ fenceCloseChars) := by
    simp [fenceJsonChars]
  rw [hopen, reSubStar,
    if_pos (by simp [listStartsWith] : listStartsWith
      (btChar :: [btChar, btChar, 'j', 's', 'o', 'n'])
      (btChar :: btChar :: btChar :: 'j' :: 's' :: 'o' :: 'n' :: '\n' ::
        (t' ++ fenceCloseChars)) = true)]
  have hdrop : (btChar :: btChar :: btChar :: 'j' :: 's' :: 'o' :: 'n' ::
      '\n' :: (t' ++ fenceCloseChars)).drop
        (btChar :: [btChar, btChar, 'j', 's', 'o', 'n']).length =
      '\n' :: (t' ++ fenceCloseChars) := by
    simp
  rw [hdrop, List.dropWhile_cons, if_pos (by decide : isPySpace '\n' = true)]
  cases hy : t'.dropWhile isPySpace with
  | nil =>
    rw [dropWhile_append_nil t' fenceCloseChars hy]
    have hfc : fenceCloseChars.dropWhile isPySpace =
        [btChar, btChar, btChar] := by decide
    rw [hfc]
    have h1 : reSubStar btChar [btChar, btChar, 'j', 's', 'o', 'n']
        [btChar, btChar, btChar] = [btChar, btChar, btChar] :=
      reSubStar_short btChar [btChar, btChar, 'j', 's', 'o', 'n']
        [btChar, btChar, btChar] (by decide)
    rw [h1]
    have h2 : reSubStar btChar [btChar, btChar]
        [btChar, btChar, btChar] = [] := by
      rw [reSubStar, if_pos (by decide : listStartsWith
        (btChar :: [btChar, btChar]) [btChar, btChar, btChar] = true)]
      have hd2 : (List.drop (btChar :: [btChar, btChar]).length
          [btChar, btChar, btChar]).dropWhile isPySpace =
          ([] : List Char) := by decide
      rw [hd2, reSubStar]
    rw [h2]
    have hstrip' : pyStripChars t' = [] := by
      unfold pyStripChars
      rw [hy]
      rfl
    rw [hstrip']
    rfl
  | cons c rest =>
    have hnbt : ∀ d ∈ c :: rest, d ≠ btChar := by
      intro d hd
      exact hbt d (mem_of_mem_dropWhile t' d (hy ▸ hd))
    have hns : isPySpace c = false := dropWhile_head_not t' c rest hy
    rw [dropWhile_append_cons t' fenceCloseChars c rest hy,
      show c :: (rest ++ fenceCloseChars) = (c :: rest) ++ fenceCloseChars
        from rfl,
      reSubStar_append_no_bt _ (c :: rest) fenceCloseChars hnbt]
    have hfc1 : reSubStar btChar [btChar, btChar, 'j', 's', 'o', 'n']
        fenceCloseChars = fenceCloseChars := by
      show reSubStar btChar [btChar, btChar, 'j', 's', 'o', 'n']
        ('\n' :: [btChar, btChar, btChar]) = _
      rw [reSubStar,
        if_neg (by
          rw [listStartsWith_false_of_ne _ _ (by decide : '\n' ≠ btChar)]
          simp),
        reSubStar_short btChar [btChar, btChar, 'j', 's', 'o', 'n']
          [btChar, btChar, btChar] (by decide)]
      rfl
    rw [hfc1, reSubStar_append_no_bt _ (c :: rest) fenceCloseChars hnbt]
    have hfc2 : reSubStar btChar [btChar, btChar] fenceCloseChars =
        ['\n'] := by
      show reSubStar btChar [btChar, btChar]
        ('\n' :: [btChar, btChar, btChar]) = _
      rw [reSubStar,
        if_neg (by
          rw [listStartsWith_false_of_ne _ _ (by decide : '\n' ≠ btChar)]
          simp),
        reSubStar, if_pos (by decide : listStartsWith
          (btChar :: [btChar, btChar]) [btChar, btChar, btChar] = true)]
      have hd3 : (List.drop (btChar :: [btChar, btChar]).length
          [btChar, btChar, btChar]).dropWhile isPySpace =
          ([] : List Char) := by decide
      rw [hd3, reSubStar]
    rw [hfc2]
    have hstrip : pyStripChars ((c :: rest) ++ ['\n']) = pyStripChars t' := by
      unfold pyStripChars
      rw [hy, dropWhile_append_cons (c :: rest) ['\n'] c rest
          (by rw [List.dropWhile_cons, if_neg (by simp [hns])]),
        show c :: (rest ++ ['\n']) = (c :: rest) ++ ['\n'] from rfl]
      simp only [List.reverse_append, List.reverse_cons, List.reverse_nil,
        List.nil_append, List.singleton_append, List.dropWhile_cons,
        if_pos (by decide : isPySpace '\n' = true)]
    rw [← hstrip]

/-- C8: for a JSON array text containing no backtick, the tolerant
parser applied to the text wrapped in ```json fences with smart quotes
substituted for straight quotes returns the same structured list as the
parser applied to the unwrapped, straight-quoted text. -/
theorem C8_parser_fence_smartquote_roundtrip :
    ∀ t t' : List Char, smartQuotedB t t' = true →
      (∀ c ∈ t, c ≠ btChar) →
      ∀ J : JsonLib,
        _parse_questions_response J (fenceWrap (String.mk t')) =
          _parse_questions_response J (String.mk t) := by
  intro t t' hsq hbt J
  have hbt' : ∀ c ∈ t', c ≠ btChar := smartQuotedB_no_bt t t' hsq hbt
  have hdata : (fenceWrap (String.mk t')).data =
      fenceJsonChars ++ (t' ++ fenceCloseChars) := by
    unfold fenceWrap
    rw [String.data_append, String.data_append]
    rw [List.append_assoc]
    rfl
  have hclean : _clean_response_text (fenceWrap (String.mk t')) =
      _clean_response_text (String.mk t) := by
    unfold _clean_response_text
    rw [hdata]
    rw [cleanChars_fenceWrap t' hbt']
    show String.mk ((pyStripChars t').map fixQuoteChar) =
      String.mk (cleanChars t)
    rw [cleanChars_no_bt t hbt,
      smartQuotedB_mapFix _ _ (smartQuotedB_pyStrip t t' hsq)]
  unfold _parse_questions_response
  rw [hclean]

/-- Witness for C8 at the JSON array text `["a"]` and its curly-quoted
variant. -/
theorem C8_parser_fence_smartquote_roundtrip_witness :
    _parse_questions_response ⟨fun _ => none, fun _ => none⟩
        (fenceWrap (String.mk
          [lbrackChar, ldquoChar, 'a', rdquoChar, rbrackChar])) =
      _parse_questions_response ⟨fun _ => none, fun _ => none⟩
        (String.mk [lbrackChar, dqChar, 'a', dqChar, rbrackChar]) :=
  C8_parser_fence_smartquote_roundtrip
    [lbrackChar, dqChar, 'a', dqChar, rbrackChar]
    [lbrackChar, ldquoChar, 'a', rdquoChar, rbrackChar]
    (by decide) (by decide) ⟨fun _ => none, fun _ => none⟩
